import Mathlib

/-!
Verification of the chart-building core of `scripts/generate_svg.py`:
a shallow embedding of `y_for_count`, the horizontal layout, `_month_labels`
and `build_svg`, together with proofs of the specified properties.

Modelling conventions:
* Python `int` values (counts, config fields) become `Nat`.
* Python `float` arithmetic (true division, `math.log1p`) is modelled over `ℝ`,
  with `math.log1p x = Real.log (1 + x)`.
* Python's `ZeroDivisionError` (raised by `i / (n - 1)` when `n == 1`) makes
  `build_svg` fallible, so the embedding returns `Option`: `none` models the
  raised exception.
* The produced SVG string is modelled structurally: a root-attribute record
  plus an ordered list of drawing elements, mirroring the order in which the
  Python code appends markup fragments.  Numeric formatting (`:.2f`) is
  presentation only and is not modelled.
-/

/-- A calendar date, as carried by `datetime.date` after
`dt.date.fromisoformat(d["date"])`. -/
structure Date where
  year : ℕ
  month : ℕ
  day : ℕ
deriving DecidableEq, Repr

/-- One sample `{"date": ..., "count": ...}` of the contributions series. -/
structure Sample where
  date : Date
  count : ℕ
deriving DecidableEq, Repr

/-- The keyword parameters of `build_svg` with their default values
(`width=1200, height=360, padding=52, bg=BG, stroke=STROKE, text=TEXT`). -/
structure ChartConfig where
  width : ℕ := 1200
  height : ℕ := 360
  padding : ℕ := 52
  bg : String := "#1e1e1e"
  stroke : String := "#E65729"
  textColor : String := "#ffffff"
deriving DecidableEq, Repr

/-- `inner_w = width - padding * 2` (computed in `ℝ`, as Python ints embed
losslessly into its floats here). -/
noncomputable def innerW (cfg : ChartConfig) : ℝ :=
  (cfg.width : ℝ) - (cfg.padding : ℝ) * 2

/-- `inner_h = height - padding * 2`. -/
noncomputable def innerH (cfg : ChartConfig) : ℝ :=
  (cfg.height : ℝ) - (cfg.padding : ℝ) * 2

/-- The normalization step inside `y_for_count`:
`norm = math.log1p(c) / math.log1p(max_c)` when `max_c > 20`,
else `norm = c / max_c if max_c else 0`. -/
noncomputable def normFor (maxC c : ℕ) : ℝ :=
  if 20 < maxC then Real.log (1 + (c : ℝ)) / Real.log (1 + (maxC : ℝ))
  else if maxC ≠ 0 then (c : ℝ) / (maxC : ℝ)
  else 0

/-- `y_for_count(c) = padding + (1 - norm) * inner_h`. -/
noncomputable def y_for_count (cfg : ChartConfig) (maxC c : ℕ) : ℝ :=
  (cfg.padding : ℝ) + (1 - normFor maxC c) * innerH cfg

/-- The spec's description of the same normalization, written from its words:
`norm = ln(1 + count) / ln(1 + maxCount)` when `maxCount > 20`,
`norm = count / maxCount` when `0 < maxCount ≤ 20`, and `norm = 0` when
`maxCount == 0`.  Declared separately so the source formula can be compared
against it. -/
noncomputable def normSpec (c maxC : ℕ) : ℝ :=
  if 20 < maxC then Real.log (1 + (c : ℝ)) / Real.log (1 + (maxC : ℝ))
  else if 0 < maxC then (c : ℝ) / (maxC : ℝ)
  else 0

/-- `max_c = max(counts)`: the maximum count of the series (counts are `ℕ`,
so folding `max` from `0` agrees with Python's `max` on a non-empty list). -/
def maxCount (days : List Sample) : ℕ :=
  (days.map Sample.count).foldl max 0

lemma le_foldl_max (l : List ℕ) (a : ℕ) : a ≤ l.foldl max a := by
  induction l generalizing a with
  | nil => exact le_rfl
  | cons b t ih => exact le_trans (le_max_left a b) (ih (max a b))

lemma mem_le_foldl_max (l : List ℕ) (a x : ℕ) (hx : x ∈ l) :
    x ≤ l.foldl max a := by
  induction l generalizing a with
  | nil => cases hx
  | cons b t ih =>
    rcases List.mem_cons.mp hx with h | h
    · subst h
      exact le_trans (le_max_right a x) (le_foldl_max t (max a x))
    · exact ih (max a b) h

lemma count_le_maxCount (days : List Sample) (d : Sample) (hd : d ∈ days) :
    d.count ≤ maxCount days :=
  mem_le_foldl_max _ 0 _ (List.mem_map_of_mem Sample.count hd)

lemma normFor_eq_normSpec (maxC c : ℕ) : normFor maxC c = normSpec c maxC := by
  unfold normFor normSpec
  by_cases h : 20 < maxC
  · simp [h]
  · simp only [h, if_false]
    by_cases h0 : maxC = 0
    · simp [h0]
    · simp [h0, Nat.pos_of_ne_zero h0]

lemma normFor_nonneg (maxC c : ℕ) : 0 ≤ normFor maxC c := by
  unfold normFor
  by_cases h : 20 < maxC
  · simp only [h, if_true]
    apply div_nonneg
    · exact Real.log_nonneg (by linarith [Nat.cast_nonneg (α := ℝ) c])
    · exact Real.log_nonneg (by linarith [Nat.cast_nonneg (α := ℝ) maxC])
  · simp only [h, if_false]
    by_cases h0 : maxC ≠ 0
    · rw [if_pos h0]
      exact div_nonneg (Nat.cast_nonneg c) (Nat.cast_nonneg maxC)
    · rw [if_neg h0]

lemma normFor_le_one (maxC c : ℕ) (hc : c ≤ maxC) : normFor maxC c ≤ 1 := by
  unfold normFor
  by_cases h : 20 < maxC
  · simp only [h, if_true]
    have hpos : 0 < Real.log (1 + (maxC : ℝ)) := by
      apply Real.log_pos
      have : (20 : ℝ) < (maxC : ℝ) := by exact_mod_cast h
      linarith
    rw [div_le_one hpos]
    apply Real.log_le_log (by linarith [Nat.cast_nonneg (α := ℝ) c])
    have : (c : ℝ) ≤ (maxC : ℝ) := by exact_mod_cast hc
    linarith
  · simp only [h, if_false]
    by_cases h0 : maxC ≠ 0
    · rw [if_pos h0]
      have hpos : (0 : ℝ) < (maxC : ℝ) := by
        exact_mod_cast Nat.pos_of_ne_zero h0
      rw [div_le_one hpos]
      exact_mod_cast hc
    · rw [if_neg h0]
      exact zero_le_one

/-- The x position of sample `i` in an `n`-sample series:
`xs = [padding + (i / (n - 1)) * inner_w for i in range(n)]`.
Python's `/` is true (float) division; for `n = 1` it raises
`ZeroDivisionError`, which `build_svg` models by returning `none` before
this formula is ever used. -/
noncomputable def xPos (cfg : ChartConfig) (n i : ℕ) : ℝ :=
  (cfg.padding : ℝ) + ((i : ℝ) / ((n : ℝ) - 1)) * innerW cfg

/-- `date_obj.strftime("%b")`: the short English month name.  `datetime.date`
guarantees `1 ≤ month ≤ 12`; other values never occur. -/
def monthName (m : ℕ) : String :=
  match m with
  | 1 => "Jan" | 2 => "Feb" | 3 => "Mar" | 4 => "Apr"
  | 5 => "May" | 6 => "Jun" | 7 => "Jul" | 8 => "Aug"
  | 9 => "Sep" | 10 => "Oct" | 11 => "Nov" | 12 => "Dec"
  | _ => ""

/-- The selection test of `_month_labels`:
`date_obj.day == 1 and date_obj.month in (1, 4, 7, 10)`. -/
def isQuarterStart (d : Date) : Prop :=
  d.day = 1 ∧ (d.month = 1 ∨ d.month = 4 ∨ d.month = 7 ∨ d.month = 10)

instance (d : Date) : Decidable (isQuarterStart d) := by
  unfold isQuarterStart
  infer_instance

/-- The loop of `_month_labels`, carrying the running index `i` of
`enumerate(days)`. -/
def monthLabelsAux (i : ℕ) : List Sample → List (ℕ × String)
  | [] => []
  | d :: rest =>
    if isQuarterStart d.date then
      (i, monthName d.date.month) :: monthLabelsAux (i + 1) rest
    else
      monthLabelsAux (i + 1) rest

/-- `_month_labels(days)`: the `(index, shortMonthName)` pairs of the samples
dated the 1st of January, April, July or October, in sample order. -/
def monthLabels (days : List Sample) : List (ℕ × String) :=
  monthLabelsAux 0 days

/-- One drawing element of the produced SVG body, in the order the Python code
appends markup fragments.  Coordinates are the exact real values the code
formats with `:.2f`. -/
inductive Elem where
  /-- `<rect width="100%" height="100%" fill=.../>`; `rounded` records the
  `rx="14" ry="14"` corner attributes of the non-empty branch. -/
  | rectEl (fill : String) (rounded : Bool)
  /-- The `<defs><filter id="glow">...</filter></defs>` block. -/
  | glowFilter
  /-- A `<text>` element with its position, font size, optional
  `text-anchor`, and content. -/
  | textEl (x y : ℝ) (fontSize : ℕ) (anchor : Option String) (content : String)
  /-- A horizontal gridline `<line x1=... y1=... x2=... y2=.../>`. -/
  | lineEl (x1 y1 x2 y2 : ℝ)
  /-- A `<path d="M...L..."/>` through the given points with the given stroke
  width; `glow` records `filter="url(#glow)"`. -/
  | pathEl (pts : List (ℝ × ℝ)) (strokeColor : String) (strokeWidth : ℝ)
      (glow : Bool)

/-- The produced SVG document: root `<svg>` attributes plus body elements.
`viewBox` is `some (w, h)` when the root tag carries `viewBox="0 0 w h"`,
and `ariaLabel` is `some s` when it carries `role="img" aria-label="s"`. -/
structure Svg where
  width : ℕ
  height : ℕ
  viewBox : Option (ℕ × ℕ)
  ariaLabel : Option String
  elements : List Elem

/-- `build_svg(days, width, height, padding, bg, stroke, text)`.

* Empty `days`: the early return of a background-only document whose root tag
  has only `xmlns`, `width` and `height`.
* `len(days) == 1`: the comprehension computing `xs` evaluates `0 / (1 - 1)`
  and Python raises `ZeroDivisionError`; modelled as `none`.
* Otherwise: the full document, with elements listed in exactly the order the
  code emits them (background, defs, title, subtitle, gridlines, glow path,
  crisp path, month labels, max annotation). -/
noncomputable def build_svg (days : List Sample)
    (cfg : ChartConfig := {}) : Option Svg :=
  match days with
  | [] =>
    some { width := cfg.width, height := cfg.height, viewBox := none,
           ariaLabel := none, elements := [Elem.rectEl cfg.bg false] }
  | [_] => none
  | d0 :: d1 :: rest =>
    let days := d0 :: d1 :: rest
    let n := days.length
    let counts := days.map Sample.count
    let maxC := counts.foldl max 0
    let total := counts.sum
    let pts := (List.range n).map fun i =>
      (xPos cfg n i, y_for_count cfg maxC (counts.getD i 0))
    let grid := (List.range 6).map fun i =>
      Elem.lineEl (cfg.padding : ℝ)
        ((cfg.padding : ℝ) + ((i : ℝ) / 5) * innerH cfg)
        ((cfg.width : ℝ) - (cfg.padding : ℝ))
        ((cfg.padding : ℝ) + ((i : ℝ) / 5) * innerH cfg)
    let labelEls := (monthLabels days).map fun p =>
      Elem.textEl (xPos cfg n p.1)
        ((cfg.height : ℝ) - (cfg.padding : ℝ) + 24) 11 (some "middle") p.2
    some { width := cfg.width, height := cfg.height,
           viewBox := some (cfg.width, cfg.height),
           ariaLabel := some "GitHub contributions line chart",
           elements :=
             [Elem.rectEl cfg.bg true,
              Elem.glowFilter,
              Elem.textEl (cfg.padding : ℝ) ((cfg.padding : ℝ) - 16) 20 none
                "GitHub Contributions",
              Elem.textEl (cfg.padding : ℝ) ((cfg.padding : ℝ) + 6) 12 none
                ("Year " ++ toString d0.date.year ++ " â€¢ Total "
                  ++ toString total)]
             ++ grid
             ++ [Elem.pathEl pts cfg.stroke (26 / 10) true,
                 Elem.pathEl pts cfg.stroke (14 / 10) false]
             ++ labelEls
             ++ [Elem.textEl ((cfg.width : ℝ) - (cfg.padding : ℝ))
                   ((cfg.padding : ℝ) - 10) 11 (some "end")
                   ("max: " ++ toString maxC)] }

/-- Body predicate: does the element list contain a `<path>`? -/
def hasPathEl (es : List Elem) : Bool :=
  es.any fun e => match e with | Elem.pathEl _ _ _ _ => true | _ => false

/-- Body predicate: does the element list contain a `<line>` gridline? -/
def hasLineEl (es : List Elem) : Bool :=
  es.any fun e => match e with | Elem.lineEl _ _ _ _ => true | _ => false

/-- Body predicate: does the element list contain any `<text>` (so in
particular any month label)? -/
def hasTextEl (es : List Elem) : Bool :=
  es.any fun e => match e with | Elem.textEl _ _ _ _ _ => true | _ => false

/-- Gregorian leap-year rule, as implemented by `datetime.date`. -/
def isLeap (y : ℕ) : Bool :=
  (y % 4 == 0 && y % 100 != 0) || y % 400 == 0

/-- The number of days of month `m` of year `y` (months are 1-based). -/
def daysInMonth (y m : ℕ) : ℕ :=
  if m = 2 then (if isLeap y then 29 else 28)
  else if m = 4 ∨ m = 6 ∨ m = 9 ∨ m = 11 then 30
  else 31

/-- A full calendar year of samples, one per day in ascending date order,
all with count 0 — the shape of the series the data source returns for a
complete year.  Input fixture only. -/
def fullYear (y : ℕ) : List Sample :=
  ((List.range 12).map fun m =>
    (List.range (daysInMonth y (m + 1))).map fun d =>
      { date := { year := y, month := m + 1, day := d + 1 }, count := 0 }).flatten

lemma mem_monthLabelsAux (days : List Sample) :
    ∀ (k i : ℕ) (s : String),
      ((i, s) ∈ monthLabelsAux k days ↔
        ∃ j d, days.get? j = some d ∧ i = k + j ∧ isQuarterStart d.date ∧
          s = monthName d.date.month) := by
  induction days with
  | nil =>
    intro k i s
    simp [monthLabelsAux]
  | cons d rest ih =>
    intro k i s
    by_cases h : isQuarterStart d.date
    · rw [monthLabelsAux, if_pos h]
      simp only [List.mem_cons]
      constructor
      · rintro (heq | hmem)
        · obtain ⟨hi, hs⟩ := Prod.mk.injEq .. ▸ heq
          exact ⟨0, d, rfl, by omega, h, hs⟩
        · obtain ⟨j, d', hget, hi, hq, hs⟩ := (ih (k + 1) i s).mp hmem
          exact ⟨j + 1, d', by simpa using hget, by omega, hq, hs⟩
      · rintro ⟨j, d', hget, hi, hq, hs⟩
        cases j with
        | zero =>
          left
          simp only [List.get?_cons_zero, Option.some.injEq] at hget
          subst hget
          subst hs
          simp [hi]
        | succ j' =>
          right
          refine (ih (k + 1) i s).mpr ⟨j', d', by simpa using hget, by omega,
            hq, hs⟩
    · rw [monthLabelsAux, if_neg h]
      constructor
      · intro hmem
        obtain ⟨j, d', hget, hi, hq, hs⟩ := (ih (k + 1) i s).mp hmem
        exact ⟨j + 1, d', by simpa using hget, by omega, hq, hs⟩
      · rintro ⟨j, d', hget, hi, hq, hs⟩
        cases j with
        | zero =>
          simp only [List.get?_cons_zero, Option.some.injEq] at hget
          subst hget
          exact absurd hq h
        | succ j' =>
          exact (ih (k + 1) i s).mpr ⟨j', d', by simpa using hget, by omega,
            hq, hs⟩

lemma monthLabelsAux_fst_ge (days : List Sample) :
    ∀ (k : ℕ) (p : ℕ × String), p ∈ monthLabelsAux k days → k ≤ p.1 := by
  induction days with
  | nil =>
    intro k p hp
    simp [monthLabelsAux] at hp
  | cons d rest ih =>
    intro k p hp
    by_cases h : isQuarterStart d.date
    · rw [monthLabelsAux, if_pos h] at hp
      rcases List.mem_cons.mp hp with heq | hmem
      · subst heq; exact le_rfl
      · exact le_trans (Nat.le_succ k) (ih (k + 1) p hmem)
    · rw [monthLabelsAux, if_neg h] at hp
      exact le_trans (Nat.le_succ k) (ih (k + 1) p hp)

lemma monthLabelsAux_pairwise (days : List Sample) :
    ∀ k : ℕ, (monthLabelsAux k days).Pairwise (fun p q => p.1 < q.1) := by
  induction days with
  | nil =>
    intro k
    simp [monthLabelsAux]
  | cons d rest ih =>
    intro k
    by_cases h : isQuarterStart d.date
    · rw [monthLabelsAux, if_pos h]
      refine List.Pairwise.cons ?_ (ih (k + 1))
      intro q hq
      have := monthLabelsAux_fst_ge rest (k + 1) q hq
      omega
    · rw [monthLabelsAux, if_neg h]
      exact ih (k + 1)

/-- Concrete input fixture: a single sample dated 2023-01-01 with count 5. -/
def sampleJan1 : Sample := { date := { year := 2023, month := 1, day := 1 }, count := 5 }

/-- Concrete input fixture: a sample dated 2023-01-02 with count 3. -/
def sampleJan2 : Sample := { date := { year := 2023, month := 1, day := 2 }, count := 3 }

/-- Concrete input fixture: a two-sample series. -/
def twoDays : List Sample :=
  [{ date := { year := 2023, month := 1, day := 1 }, count := 0 }, sampleJan2]

/-- C1: for every non-empty sample series, with `maxCount` the maximum count
over the series, the computed vertical position of a sample with count `c`
equals `padding + (1 - norm) * innerHeight` with `norm` exactly as the spec
describes it: logarithmic when `maxCount > 20`, linear when
`0 < maxCount ≤ 20`, and `0` when `maxCount = 0`. -/
theorem C1_y_position_matches_spec (cfg : ChartConfig) (days : List Sample)
    (hne : days ≠ []) (d : Sample) (hd : d ∈ days) :
    y_for_count cfg (maxCount days) d.count =
      (cfg.padding : ℝ) +
        (1 - normSpec d.count (maxCount days)) * innerH cfg := by
  unfold y_for_count
  rw [normFor_eq_normSpec]

theorem C1_y_position_matches_spec_witness :
    [sampleJan1] ≠ [] ∧ sampleJan1 ∈ [sampleJan1] ∧
    y_for_count {} (maxCount [sampleJan1]) sampleJan1.count =
      ((({} : ChartConfig).padding : ℝ) +
        (1 - normSpec sampleJan1.count (maxCount [sampleJan1])) *
          innerH {}) :=
  ⟨by simp, by simp,
    C1_y_position_matches_spec {} [sampleJan1] (by simp) sampleJan1 (by simp)⟩

/-- C2 (behaviour at the failing input): for any single-sample series the
builder does not produce an output — the `xs` comprehension evaluates
`0 / (n - 1)` with `n = 1` and Python raises `ZeroDivisionError`, modelled
as `none`.  This contradicts the claim that a division fault never occurs. -/
theorem C2_single_sample_raises (d : Sample) (cfg : ChartConfig) :
    build_svg [d] cfg = none := rfl

/-- C3: the empty series yields a defined output whose body is exactly the
background rectangle — no path element, no gridline, no text (hence no month
label); the root tag carries only the canvas size. -/
theorem C3_empty_series_background_only (cfg : ChartConfig) :
    build_svg [] cfg =
      some { width := cfg.width, height := cfg.height, viewBox := none,
             ariaLabel := none, elements := [Elem.rectEl cfg.bg false] } ∧
    hasPathEl [Elem.rectEl cfg.bg false] = false ∧
    hasLineEl [Elem.rectEl cfg.bg false] = false ∧
    hasTextEl [Elem.rectEl cfg.bg false] = false :=
  ⟨rfl, rfl, rfl, rfl⟩

/-- C4: for a series of `n > 1` samples (and a configuration whose plotting
width is positive, as the defaults are), x positions are strictly increasing
in the sample index, the first sample sits at `padding` and the last at
`width - padding`. -/
theorem C4_x_layout (cfg : ChartConfig) (n i j : ℕ) (hn : 1 < n)
    (hw : 2 * cfg.padding < cfg.width) (hij : i < j) (hj : j < n) :
    xPos cfg n i < xPos cfg n j ∧
    xPos cfg n 0 = (cfg.padding : ℝ) ∧
    xPos cfg n (n - 1) = (cfg.width : ℝ) - (cfg.padding : ℝ) := by
  have hn2 : (2 : ℝ) ≤ (n : ℝ) := by exact_mod_cast hn
  have hden : (0 : ℝ) < (n : ℝ) - 1 := by linarith
  have hw' : (2 : ℝ) * (cfg.padding : ℝ) < (cfg.width : ℝ) := by
    exact_mod_cast hw
  have hiw : (0 : ℝ) < innerW cfg := by
    unfold innerW
    linarith
  refine ⟨?_, ?_, ?_⟩
  · unfold xPos
    have hij' : (i : ℝ) < (j : ℝ) := by exact_mod_cast hij
    have hdiv : (i : ℝ) / ((n : ℝ) - 1) < (j : ℝ) / ((n : ℝ) - 1) :=
      div_lt_div_of_pos_right hij' hden
    have := mul_lt_mul_of_pos_right hdiv hiw
    linarith
  · unfold xPos
    simp
  · unfold xPos
    have hc : ((n - 1 : ℕ) : ℝ) = (n : ℝ) - 1 := by
      have h1 : 1 ≤ n := le_of_lt hn
      push_cast [h1]
      ring
    rw [hc, div_self (ne_of_gt hden)]
    unfold innerW
    ring

theorem C4_x_layout_witness :
    1 < 3 ∧ 2 * ({} : ChartConfig).padding < ({} : ChartConfig).width ∧
    0 < 1 ∧ 1 < 3 ∧
    (xPos {} 3 0 < xPos {} 3 1 ∧
     xPos {} 3 0 = ((({} : ChartConfig).padding : ℕ) : ℝ) ∧
     xPos {} 3 (3 - 1) =
       ((({} : ChartConfig).width : ℕ) : ℝ) -
         ((({} : ChartConfig).padding : ℕ) : ℝ)) :=
  ⟨by decide, by decide, by decide, by decide,
    C4_x_layout {} 3 0 1 (by decide) (by decide) (by decide) (by decide)⟩

/-- C5: a sample is selected as a month-label anchor iff its date's
day-of-month is 1 and its month is 1, 4, 7 or 10; the output pairs are in
strictly increasing index (i.e. sample) order; and a full calendar year
yields exactly 4 labels. -/
theorem C5_month_label_selection :
    (∀ (days : List Sample) (i : ℕ) (s : String),
      (i, s) ∈ monthLabels days ↔
        ∃ d, days.get? i = some d ∧ d.date.day = 1 ∧
          (d.date.month = 1 ∨ d.date.month = 4 ∨ d.date.month = 7 ∨
            d.date.month = 10) ∧
          s = monthName d.date.month) ∧
    (∀ days : List Sample,
      (monthLabels days).Pairwise (fun p q => p.1 < q.1)) ∧
    (monthLabels (fullYear 2023)).length = 4 := by
  refine ⟨?_, ?_, ?_⟩
  · intro days i s
    rw [monthLabels, mem_monthLabelsAux days 0 i s]
    constructor
    · rintro ⟨j, d, hget, hi, hq, hs⟩
      obtain ⟨hday, hmonth⟩ := hq
      exact ⟨d, by simpa [hi] using hget, hday, hmonth, hs⟩
    · rintro ⟨d, hget, hday, hmonth, hs⟩
      exact ⟨i, d, hget, by omega, ⟨hday, hmonth⟩, hs⟩
  · intro days
    exact monthLabelsAux_pairwise days 0
  · decide

/-- C6: when `maxCount > 20` (logarithmic branch), the normalized value for
`count = maxCount` is exactly 1 and for `count = 0` is exactly 0. -/
theorem C6_log_norm_endpoints (maxC : ℕ) (h : 20 < maxC) :
    normFor maxC maxC = 1 ∧ normFor maxC 0 = 0 := by
  constructor
  · unfold normFor
    rw [if_pos h]
    apply div_self
    apply ne_of_gt
    apply Real.log_pos
    have : (20 : ℝ) < (maxC : ℝ) := by exact_mod_cast h
    linarith
  · unfold normFor
    rw [if_pos h]
    norm_num

theorem C6_log_norm_endpoints_witness :
    20 < 21 ∧ (normFor 21 21 = 1 ∧ normFor 21 0 = 0) :=
  ⟨by decide, C6_log_norm_endpoints 21 (by decide)⟩

/-- C7: when `0 < maxCount ≤ 20` (linear branch), normalization is strictly
monotone: `count1 < count2` (both within `[0, maxCount]`) implies
`norm1 < norm2`. -/
theorem C7_linear_norm_strict_mono (maxC c1 c2 : ℕ) (h0 : 0 < maxC)
    (h20 : maxC ≤ 20) (h12 : c1 < c2) (hc2 : c2 ≤ maxC) :
    normFor maxC c1 < normFor maxC c2 := by
  have hlt : ¬ 20 < maxC := by omega
  have hne : maxC ≠ 0 := by omega
  unfold normFor
  rw [if_neg hlt, if_pos hne, if_neg hlt, if_pos hne]
  have hpos : (0 : ℝ) < (maxC : ℝ) := by exact_mod_cast h0
  exact (div_lt_div_iff_of_pos_right hpos).mpr (by exact_mod_cast h12)

theorem C7_linear_norm_strict_mono_witness :
    0 < 20 ∧ 20 ≤ 20 ∧ 5 < 10 ∧ 10 ≤ 20 ∧ normFor 20 5 < normFor 20 10 :=
  ⟨by decide, by decide, by decide, by decide,
    C7_linear_norm_strict_mono 20 5 10 (by decide) (by decide) (by decide)
      (by decide)⟩

/-- C8 counterexample: for the empty series (a valid input series) the
produced document carries no viewport declaration and no accessible
description attribute — its root tag has `viewBox = none` and
`ariaLabel = none` — so the claim, which demands both for every input
series including the empty one, fails on the code. -/
theorem C8_empty_lacks_viewport_and_label :
    (build_svg [] {}).map Svg.viewBox = some none ∧
    (build_svg [] {}).map Svg.ariaLabel = some none :=
  ⟨rfl, rfl⟩

/-- C8 amended: for every series of at least two samples, the produced
document carries explicit width and height matching the configuration, a
viewport declaration `viewBox="0 0 width height"`, and the accessible
description `aria-label="GitHub contributions line chart"`; the empty-series
document instead carries only width and height. -/
theorem C8_viewport_and_label (days : List Sample) (cfg : ChartConfig)
    (h : 2 ≤ days.length) :
    (build_svg days cfg).map Svg.width = some cfg.width ∧
    (build_svg days cfg).map Svg.height = some cfg.height ∧
    (build_svg days cfg).map Svg.viewBox = some (some (cfg.width, cfg.height)) ∧
    (build_svg days cfg).map Svg.ariaLabel =
      some (some "GitHub contributions line chart") := by
  cases days with
  | nil => simp at h
  | cons d0 t =>
    cases t with
    | nil => simp at h
    | cons d1 rest => exact ⟨rfl, rfl, rfl, rfl⟩

theorem C8_viewport_and_label_witness :
    2 ≤ twoDays.length ∧
    ((build_svg twoDays {}).map Svg.width = some ({} : ChartConfig).width ∧
     (build_svg twoDays {}).map Svg.height = some ({} : ChartConfig).height ∧
     (build_svg twoDays {}).map Svg.viewBox =
       some (some (({} : ChartConfig).width, ({} : ChartConfig).height)) ∧
     (build_svg twoDays {}).map Svg.ariaLabel =
       some (some "GitHub contributions line chart")) :=
  ⟨by decide, C8_viewport_and_label twoDays {} (by decide)⟩

/-- C9: the chart builder is a pure function of its inputs — equal sample
series and equal configurations yield equal outputs (the embedding carries
no state; the Python function reads no mutable globals). -/
theorem C9_pure_function (days1 days2 : List Sample)
    (cfg1 cfg2 : ChartConfig) (hd : days1 = days2) (hc : cfg1 = cfg2) :
    build_svg days1 cfg1 = build_svg days2 cfg2 := by
  rw [hd, hc]

theorem C9_pure_function_witness :
    ([] : List Sample) = [] ∧ ({} : ChartConfig) = {} ∧
    build_svg [] {} = build_svg [] {} :=
  ⟨rfl, rfl, C9_pure_function [] [] {} {} rfl rfl⟩

/-- C10: for every non-empty series, with `maxCount` the true maximum of the
series, the vertical position of every sample lies within the plotting
rectangle: `padding ≤ y ≤ height - padding` (the configuration satisfying
`2 * padding ≤ height`, as the defaults do). -/
theorem C10_y_within_plot (cfg : ChartConfig) (days : List Sample)
    (hne : days ≠ []) (d : Sample) (hd : d ∈ days)
    (hpad : 2 * cfg.padding ≤ cfg.height) :
    (cfg.padding : ℝ) ≤ y_for_count cfg (maxCount days) d.count ∧
    y_for_count cfg (maxCount days) d.count ≤
      (cfg.height : ℝ) - (cfg.padding : ℝ) := by
  have hc := count_le_maxCount days d hd
  have h0 := normFor_nonneg (maxCount days) d.count
  have h1 := normFor_le_one (maxCount days) d.count hc
  have hpad' : (2 : ℝ) * (cfg.padding : ℝ) ≤ (cfg.height : ℝ) := by
    exact_mod_cast hpad
  have hih : (0 : ℝ) ≤ innerH cfg := by
    unfold innerH
    linarith
  have hihEq : innerH cfg = (cfg.height : ℝ) - (cfg.padding : ℝ) * 2 := rfl
  unfold y_for_count
  constructor
  · have : 0 ≤ (1 - normFor (maxCount days) d.count) * innerH cfg :=
      mul_nonneg (by linarith) hih
    linarith
  · have : (1 - normFor (maxCount days) d.count) * innerH cfg ≤ innerH cfg :=
      mul_le_of_le_one_left hih (by linarith)
    rw [hihEq] at this ⊢
    linarith

theorem C10_y_within_plot_witness :
    twoDays ≠ [] ∧ sampleJan2 ∈ twoDays ∧
    2 * ({} : ChartConfig).padding ≤ ({} : ChartConfig).height ∧
    (((({} : ChartConfig).padding : ℕ) : ℝ) ≤
        y_for_count {} (maxCount twoDays) sampleJan2.count ∧
      y_for_count {} (maxCount twoDays) sampleJan2.count ≤
        ((({} : ChartConfig).height : ℕ) : ℝ) -
          ((({} : ChartConfig).padding : ℕ) : ℝ)) :=
  ⟨by decide, by decide, by decide,
    C10_y_within_plot {} twoDays (by decide) sampleJan2 (by decide)
      (by decide)⟩
